import Mathlib

/-!
Verification of `lab_marker/auto/lab2/marker.py` (Marking_GUI repository).

The file embeds the execution classifier `run_lab_2_code`, the file
discovery function `find_file`, the per-submission driver
`run_individual_submission`, and the batch/retry drivers
`mark_submissions_auto` / `retry_marking` as Lean functions, and proves
the specified properties about them.

Code that the repository uses but whose source is not part of the
verified tree (`config.ExecStatus`, `ProcessHandler`, `StreamHandler`,
`utils.print_and_get_selection`) is modelled from the specification, as
marked in the corresponding doc comments.
-/

namespace MarkingGui

/-- Modelled from the spec: `config.ExecStatus`, the execution-outcome
enumeration, is not part of the verified tree.  Per the spec, outcomes are
integer-valued with 0 meaning success and every failure code nonzero;
`FILE_NOT_FOUND` is -2 per the docstring of `run_individual_submission`.
The remaining codes are distinct nonzero values (only zero-versus-nonzero
is ever observed by the code under verification). -/
inductive ExecStatus where
  | OK
  | FILE_NOT_FOUND
  | EXECUTION_FAILED
  | UNEXPECTED_TERMINATION
  | TIMEOUT
deriving DecidableEq, Repr

/-- Integer code of each outcome (`status.value` in the Python code). -/
def ExecStatus.value : ExecStatus → Int
  | .OK => 0
  | .FILE_NOT_FOUND => -2
  | .EXECUTION_FAILED => -3
  | .UNEXPECTED_TERMINATION => -4
  | .TIMEOUT => -5

/-- Modelled from the spec: `ExecStatus.get_description`, the static
lookup from integer code to human-readable description ("every nonzero
value pairs with a fixed human-readable description string").  The exact
strings are not in the verified tree; only the mapping's existence is
relevant to the claims. -/
def ExecStatus.get_description (v : Int) : String :=
  if v = 0 then "Successful execution"
  else if v = -2 then "File not found"
  else if v = -3 then "Execution failed"
  else if v = -4 then "Unexpected termination"
  else if v = -5 then "Timeout"
  else "Unknown status"

/-- The exception type raised by the process handle when it is polled
after the child has terminated (Python's built-in `ChildProcessError`). -/
inductive ChildProcessError where
  | childExited
deriving DecidableEq, Repr

/-- Abstract behaviour of one spawned child process, as observed by the
classifier.  Polls are numbered 0, 1, 2, ... in the order
`run_lab_2_code` performs them (poll 0 is the immediate poll on line 78;
polls 1, 2, ... happen inside the `while` loop).
`exited n` tells whether the handle observes, at poll `n`, that the child
has terminated.  `elapsed n` is the wall-clock time since spawn
(`time.time() - exec_start_time`, in seconds) read right after poll `n`;
it is what the `except ChildProcessError` handler compares against 2. -/
structure ProcEnv where
  exited : Nat → Bool
  elapsed : Nat → ℚ

/-- Modelled from the spec: `ProcessHandler.get_output` is not part of
the verified tree.  Per the spec (§4.1), the poll blocks for at most its
timeout and returns normally on expiry; when the child has exited the
handle signals a "child terminated" condition and the liveness flag
becomes false.  Consistently with the classifier's use of the first poll
(spec §4.2 step 3, which checks `is_alive` after the first poll returns),
the first poll that observes the exit returns normally with the liveness
flag flipped to false, and a poll on a handle that is already not alive
raises `ChildProcessError`.  The result is the updated liveness flag. -/
def get_output (env : ProcEnv) (alive : Bool) (pollIdx : Nat) :
    Except ChildProcessError Bool :=
  if alive then .ok (!(env.exited pollIdx)) else .error .childExited

/-- How the `while True` polling loop of `run_lab_2_code` terminates. -/
inductive LoopExit where
  | raise (pollIdx : Nat)
  | kill (pollIdx : Nat)
deriving DecidableEq, Repr

/-- The `while True` polling loop of `run_lab_2_code` (lines 83-92).
`pollIdx` is the index of the poll performed by the current iteration;
the loop is entered with `pollIdx = 1` (poll 0 is the immediate poll
before the loop).  The Python loop keeps a counter `count`, incremented
after each poll, and kills the process once `count > 150`; since `count`
equals `pollIdx` here, the kill fires at the iteration whose entry
satisfies `count = 150`, i.e. when `iters = 150 - count` reaches 0.  The
loop is entered with `iters = 150`.
`LoopExit.raise p` means `get_output` raised `ChildProcessError` at poll
`p` (to be caught by the `except` on line 94); `LoopExit.kill p` means
the counter check fired after poll `p`, `kill_process()` was called and
`TIMEOUT` returned.  In both cases `p` is the number of polls the loop
performed. -/
def lab2Loop (env : ProcEnv) (alive : Bool) (pollIdx iters : Nat) : LoopExit :=
  match get_output env alive pollIdx, iters with
  | .error _, _ => .raise pollIdx
  | .ok _, 0 => .kill pollIdx
  | .ok alive2, n + 1 => lab2Loop env alive2 (pollIdx + 1) n

/-- Result of one classification, instrumented with the observable side
effects the claims are about: how many times `kill_process` was called,
whether a child process was spawned, how many polls the `while` loop
performed, and the synthetic messages written to the output stream via
`write_message`. -/
structure Lab2Run where
  status : ExecStatus
  kills : Nat
  spawned : Bool
  loopPolls : Nat
  messages : List String
deriving DecidableEq, Repr

/-- The launch commands of `run_lab_2_code` (lines 57-61). -/
def process_commands (port_num : Nat) (lang : String) : String :=
  if lang = "Python" then "python PingClient.py localhost " ++ toString port_num
  else if lang = "Java" then "java PingClient localhost " ++ toString port_num
  else "./PingClient localhost " ++ toString port_num

/-- Lines 77-99 of `run_lab_2_code`: everything after the process has
been spawned, given the liveness flag produced by the immediate poll on
line 78.  If the process is not alive, return `EXECUTION_FAILED` without
entering the loop; otherwise run the polling loop, catching
`ChildProcessError` and classifying by the elapsed time at the catch
(`UNEXPECTED_TERMINATION` below 2 seconds, `OK` at or above). -/
def classify_after_first (env : ProcEnv) (alive0 : Bool) : Lab2Run :=
  if alive0 = false then
    { status := .EXECUTION_FAILED, kills := 0, spawned := true,
      loopPolls := 0, messages := [] }
  else
    match lab2Loop env alive0 1 150 with
    | .kill p =>
        { status := .TIMEOUT, kills := 1, spawned := true,
          loopPolls := p, messages := [] }
    | .raise p =>
        { status := if env.elapsed p < 2 then .UNEXPECTED_TERMINATION else .OK,
          kills := 0, spawned := true, loopPolls := p, messages := [] }

/-- The execution classifier `run_lab_2_code` (lines 46-99).  `Python`
spawns the client directly; `Java` first runs the fire-and-forget
`javac` step (unobserved) and then spawns; any other detected language
falls into the `else` branch (lines 72-75), which writes a manual-review
message and returns `OK` without spawning anything.  The immediate poll
on line 78 acts on a freshly spawned handle, whose liveness flag is
true, so `get_output env true 0 = .ok (!(env.exited 0))` holds by
definition (see `get_output_fresh`); `run_lab_2_code_exc` below keeps
the poll's exception channel explicit. -/
def run_lab_2_code (env : ProcEnv) (code_lang : String) : Lab2Run :=
  if code_lang = "Python" then
    classify_after_first env (!(env.exited 0))
  else if code_lang = "Java" then
    classify_after_first env (!(env.exited 0))
  else
    { status := .OK, kills := 0, spawned := false, loopPolls := 0,
      messages := ["Code implemented in C, Please check manually!"] }

/-- `run_lab_2_code` with the exception channel of the immediate poll on
line 78 kept explicit: that poll is the only `get_output` call performed
outside the `try` block, so a `ChildProcessError` raised there would
escape the classifier (the polls inside the loop are routed to the
`except` handler by `classify_after_first`). -/
def run_lab_2_code_exc (env : ProcEnv) (code_lang : String) :
    Except ChildProcessError Lab2Run :=
  if code_lang = "Python" then
    (get_output env true 0).map (classify_after_first env)
  else if code_lang = "Java" then
    (get_output env true 0).map (classify_after_first env)
  else
    .ok { status := .OK, kills := 0, spawned := false, loopPolls := 0,
          messages := ["Code implemented in C, Please check manually!"] }

/-- The child's termination is first observed at poll `k`: the handle
reports it exited at poll `k` and at no earlier poll. -/
def FirstExitAt (env : ProcEnv) (k : Nat) : Prop :=
  env.exited k = true ∧ ∀ j, j < k → env.exited j = false

instance (env : ProcEnv) (k : Nat) : Decidable (FirstExitAt env k) :=
  inferInstanceAs (Decidable (_ ∧ _))

/-! ### File discovery (`find_file`, lines 11-43) -/

/-- A directory tree, as visible through `os.listdir` / `os.path.isdir`:
each entry is either a plain file or a subdirectory with its own
entries. -/
inductive FSEntry where
  | file (name : String)
  | dir (name : String) (entries : List FSEntry)

/-- The name of a directory entry, as returned by `os.listdir`. -/
def FSEntry.name : FSEntry → String
  | .file n => n
  | .dir n _ => n

/-- `os.path.isdir` on a directory entry. -/
def FSEntry.isDir : FSEntry → Bool
  | .file _ => false
  | .dir _ _ => true

/-- Index of the last occurrence of a dot in a character list
(`p.rfind(".")`), or `none` when there is no dot. -/
def rfindDot : List Char → Option Nat
  | [] => none
  | c :: rest =>
    match rfindDot rest with
    | some i => some (i + 1)
    | none => if c = '.' then some 0 else none

/-- `os.path.splitext` restricted to plain entry names (no path
separators), following CPython's `genericpath._splitext`: split at the
last dot, unless every character before it is itself a dot (so names
consisting of an extension only, such as `.bashrc`, and dot-free names
split into the whole name and an empty extension). -/
def splitext (p : String) : String × String :=
  match rfindDot p.data with
  | none => (p, "")
  | some i =>
    if (p.data.take i).any (fun c => c ≠ '.') then
      (⟨p.data.take i⟩, ⟨p.data.drop i⟩)
    else (p, "")

/-- `os.path.join` for the relative joins performed by `marker.py`
(POSIX flavour). -/
def osJoin (a b : String) : String := a ++ "/" ++ b

/-- The `lang_map` dictionary of `find_file` (lines 23-27), as the
lookup `lang_map[ext]` performed on line 34; the code only ever looks up
one of the three keys. -/
def langMap (ext : String) : String :=
  if ext = ".py" then "Python"
  else if ext = ".java" then "Java"
  else if ext = ".c" then "C"
  else ""

/-- The record returned by `find_file` on a successful match
(line 34). -/
structure FoundFile where
  folder_path : String
  ext : String
  language : String
deriving DecidableEq, Repr

/-- The test of lines 32-33 of `find_file`: the entry's name without
extension equals `file_name` and the extension is one of `.py`, `.c`,
`.java`.  An entry whose stem equals `file_name` but whose extension is
not in the list falls through both branches of the loop body and is
skipped entirely. -/
def matchesCandidate (file_name : String) (e : FSEntry) : Bool :=
  let p := splitext e.name
  p.1 = file_name && (p.2 == ".py" || p.2 == ".c" || p.2 == ".java")

/-- The first pass of the `for` loop of `find_file` (lines 30-38), as
far as returning a match is concerned: the loop returns on the first
entry satisfying `matchesCandidate`; the value reported here is that
entry's extension. -/
def findMatchExt (entries : List FSEntry) (file_name : String) : Option String :=
  entries.findSome? fun e =>
    if matchesCandidate file_name e then some (splitext e.name).2 else none

/-- The predicate under which the `for` loop of `find_file` appends an
entry to its `directories` list (lines 35-38): the stem differs from
`file_name` and the entry is a directory. -/
def dirCandidate (file_name : String) (e : FSEntry) : Bool :=
  (splitext e.name).1 != file_name && e.isDir

/-- `find_file` (lines 11-43).  One pass over the listing returns on the
first matching candidate file; when no entry matches, the `for` loop
over the collected `directories` list (the entries satisfying
`dirCandidate`, in listing order) returns the recursive result for its
first element on its first iteration (line 41), so only the first
collected subdirectory is ever recursed into, and `None` is returned
when there are no subdirectories to try (line 43).  The Python code
builds `directories` during the matching pass; since that list is only
consulted when no entry matched, collecting it afterwards yields the
same list.  The filtered list can only hold `dir` entries (the predicate
requires `isDir`), so the wildcard arm is unreachable. -/
def find_file (search_folder : String) (entries : List FSEntry)
    (file_name : String) : Option FoundFile :=
  match findMatchExt entries file_name with
  | some ext =>
    some { folder_path := search_folder, ext := ext, language := langMap ext }
  | none =>
    match h : entries.filter (dirCandidate file_name) with
    | .dir n sub :: _ => find_file (osJoin search_folder n) sub file_name
    | _ => none
termination_by sizeOf entries
decreasing_by
  have hmem : FSEntry.dir n sub ∈ entries :=
    List.mem_of_mem_filter (h ▸ List.mem_cons_self _ _)
  have h1 := List.sizeOf_lt_of_mem hmem
  simp only [FSEntry.dir.sizeOf_spec] at h1
  omega

/-! ### Per-submission driver and batch drivers (lines 102-224) -/

/-- Everything classification of one submission depends on: the
submission's directory tree and the behaviour of the process that would
be spawned from it. -/
structure SubmissionEnv where
  tree : List FSEntry
  procEnv : ProcEnv

/-- `run_individual_submission` (lines 102-119): locate `PingClient`
under the submission directory; report `FILE_NOT_FOUND` (writing "File
not found" to the output stream) when absent, otherwise classify via
`run_lab_2_code` with the detected language. -/
def run_individual_submission (submission_path : String) (sub : SubmissionEnv) :
    Lab2Run :=
  match find_file submission_path sub.tree "PingClient" with
  | none =>
    { status := .FILE_NOT_FOUND, kills := 0, spawned := false,
      loopPolls := 0, messages := ["File not found"] }
  | some code_file => run_lab_2_code sub.procEnv code_file.language

/-- `run_individual_submission` with the exception channel of the
classifier kept explicit (see `run_lab_2_code_exc`). -/
def run_individual_submission_exc (submission_path : String)
    (sub : SubmissionEnv) : Except ChildProcessError Lab2Run :=
  match find_file submission_path sub.tree "PingClient" with
  | none =>
    .ok { status := .FILE_NOT_FOUND, kills := 0, spawned := false,
          loopPolls := 0, messages := ["File not found"] }
  | some code_file => run_lab_2_code_exc sub.procEnv code_file.language

/-- The body of the `for` loop of `mark_submissions_auto` for one
non-skipped submission (lines 201-208), with the exception channel kept
explicit and the calls to `StreamHandler.close` counted: the stream is
created, the submission is classified, the failure ledger is updated,
and then `close` is called once.  A fault escaping the classification
would propagate before the `close` call is reached. -/
def auto_submission_body (class_path submission : String)
    (sub : SubmissionEnv) : Except ChildProcessError (ExecStatus × Nat) :=
  (run_individual_submission_exc (osJoin class_path submission) sub).map
    fun r => (r.status, 1)

/-- The body of the `while` loop of `mark_submissions_manually` for the
selected submission (lines 136-148), with `close` calls counted as in
`auto_submission_body` (the status print between the run and the `close`
does not touch the stream). -/
def manual_submission_body (class_path submission : String)
    (sub : SubmissionEnv) : Except ChildProcessError (ExecStatus × Nat) :=
  (run_individual_submission_exc (osJoin class_path submission) sub).map
    fun r => (r.status, 1)

/-- Lines 174-176 of `retry_marking` for the selected submission, with
`close` calls counted: stream creation, classification, then one `close`
(the ledger update happens after the `close`). -/
def retry_submission_body (submission_path submission : String)
    (sub : SubmissionEnv) : Except ChildProcessError (ExecStatus × Nat) :=
  (run_individual_submission_exc (osJoin submission_path submission) sub).map
    fun r => (r.status, 1)

/-- Observable outcome of `mark_submissions_auto` (lines 188-208):
which submissions an output stream was created for, which submissions
were classified, and the `failed_processes` ledger (submission paired
with the description of its nonzero outcome, in insertion order). -/
structure AutoState where
  streams : List String
  classified : List String
  failed : List (String × String)
deriving DecidableEq, Repr

/-- Python's `str.startswith`, as the character-prefix test it performs
(used on line 200 with the one-character prefix "."). -/
def pyStartsWith (s pre : String) : Bool := pre.data.isPrefixOf s.data

/-- The body of the `for` loop of `mark_submissions_auto` (lines
200-208) for one directory entry: a name starting with "." is skipped
entirely; otherwise an output stream is created for the submission, it
is classified, and it is recorded in `failed_processes` when its outcome
code is nonzero. -/
def autoStep (class_path : String) (envOf : String → SubmissionEnv)
    (st : AutoState) (submission : String) : AutoState :=
  if pyStartsWith submission "." then st
  else
    let status :=
      (run_individual_submission (osJoin class_path submission)
        (envOf submission)).status
    { streams := st.streams ++ [submission],
      classified := st.classified ++ [submission],
      failed :=
        if status.value ≠ 0 then
          st.failed ++ [(submission, ExecStatus.get_description status.value)]
        else st.failed }

/-- The `for` loop of `mark_submissions_auto` (lines 199-208) over the
class listing. -/
def mark_submissions_auto (class_path : String) (class_submissions : List String)
    (envOf : String → SubmissionEnv) : AutoState :=
  class_submissions.foldl (autoStep class_path envOf)
    { streams := [], classified := [], failed := [] }

/-- One interaction of the retry loop: the operator's selection, the
behaviour of the re-run submission, and the operator's keep-or-remove
answer for a non-OK outcome. -/
structure RetryEvent where
  sel : Nat
  sub : SubmissionEnv
  decision : String

/-- One iteration of the `while` loop of `retry_marking` (lines
162-185), acting on the remaining ledger paired with the log of
(submission, outcome, decision) triples recorded so far.  When the
ledger is empty the `while` guard has failed and the event is ignored.
Modelled from the spec: `print_and_get_selection` is not part of the
verified tree; per the spec it returns the index of the operator's pick
among the listed options, modelled as `ev.sel` reduced modulo the number
of remaining submissions.  An `OK` outcome removes the submission
automatically; otherwise it is removed exactly when the operator answers
`r` (`input(...).lower() == "r"`). -/
def retryStep (submission_path : String)
    (st : List String × List (String × ExecStatus × String))
    (ev : RetryEvent) : List String × List (String × ExecStatus × String) :=
  match st with
  | (ledger, log) =>
    if ledger.length = 0 then (ledger, log)
    else
      let submission := ledger.getD (ev.sel % ledger.length) ""
      let status :=
        (run_individual_submission (osJoin submission_path submission)
          ev.sub).status
      let log2 := log ++ [(submission, status, ev.decision)]
      if status.value = 0 then (ledger.erase submission, log2)
      else if ev.decision.toLower = "r" then (ledger.erase submission, log2)
      else (ledger, log2)

/-- The `while` loop of `retry_marking` driven by a finite list of
operator interactions, starting from the ledger of submissions to
re-mark (the keys of `retry_dict`, line 160) and an empty log. -/
def retryRun (submission_path : String) (ledger : List String)
    (evs : List RetryEvent) : List String × List (String × ExecStatus × String) :=
  evs.foldl (retryStep submission_path) (ledger, [])

/-! ### Helper lemmas -/

/-- A poll on a handle whose liveness flag is set returns normally with
the updated flag; in particular the immediate poll on a freshly spawned
handle (line 78) cannot raise. -/
theorem get_output_fresh (env : ProcEnv) (i : Nat) :
    get_output env true i = .ok (!(env.exited i)) := rfl

/-- An outcome's integer code is zero exactly for `OK`. -/
theorem value_eq_zero_iff (s : ExecStatus) : s.value = 0 ↔ s = .OK := by
  cases s <;> simp [ExecStatus.value]

/-- One step of the loop on a handle that is no longer alive: the poll
raises `ChildProcessError` immediately. -/
theorem lab2Loop_dead (env : ProcEnv) (pollIdx iters : Nat) :
    lab2Loop env false pollIdx iters = .raise pollIdx := by
  cases iters <;> simp [lab2Loop, get_output]

/-- One step of the loop on a live handle when the counter check is
about to fire: the poll is made, its result is ignored, and the process
is killed. -/
theorem lab2Loop_alive_zero (env : ProcEnv) (pollIdx : Nat) :
    lab2Loop env true pollIdx 0 = .kill pollIdx := by
  simp [lab2Loop, get_output]

/-- One step of the loop on a live handle below the counter ceiling:
the poll updates the liveness flag and the loop continues. -/
theorem lab2Loop_alive_succ (env : ProcEnv) (pollIdx n : Nat) :
    lab2Loop env true pollIdx (n + 1) =
      lab2Loop env (!(env.exited pollIdx)) (pollIdx + 1) n := by
  simp [lab2Loop, get_output]

/-- When the child's exit is first observed at poll `k` and the counter
ceiling is not hit first, the loop raises `ChildProcessError` at poll
`k + 1`: poll `k` returns normally with the liveness flag cleared, and
the next poll raises. -/
theorem lab2Loop_raise (env : ProcEnv) (k : Nat) (hk : FirstExitAt env k) :
    ∀ iters pollIdx, pollIdx ≤ k → k < pollIdx + iters →
      lab2Loop env true pollIdx iters = .raise (k + 1) := by
  intro iters
  induction iters with
  | zero => intro pollIdx h1 h2; omega
  | succ n ih =>
    intro pollIdx h1 h2
    rcases Nat.lt_or_ge pollIdx k with hlt | hge
    · have hx : env.exited pollIdx = false := hk.2 pollIdx hlt
      rw [lab2Loop_alive_succ, hx]
      exact ih (pollIdx + 1) hlt (by omega)
    · have heq : pollIdx = k := Nat.le_antisymm h1 hge
      subst heq
      rw [lab2Loop_alive_succ, hk.1]
      simp [lab2Loop_dead]

/-- When the child is never observed to exit during the loop's polls,
the counter ceiling fires: the loop performs all its polls and ends with
the kill. -/
theorem lab2Loop_kill (env : ProcEnv) :
    ∀ iters pollIdx,
      (∀ j, pollIdx ≤ j → j < pollIdx + iters → env.exited j = false) →
      lab2Loop env true pollIdx iters = .kill (pollIdx + iters) := by
  intro iters
  induction iters with
  | zero => intro p _; rw [lab2Loop_alive_zero]; rfl
  | succ n ih =>
    intro p h
    have hx : env.exited p = false := h p (Nat.le_refl p) (by omega)
    rw [lab2Loop_alive_succ, hx]
    have hrec := ih (p + 1) (fun j hj1 hj2 => h j (by omega) (by omega))
    simp only [Bool.not_false]
    rw [hrec]
    have : p + 1 + n = p + (n + 1) := by omega
    rw [this]

/-- For the two spawning languages, `run_lab_2_code` reduces to the
post-spawn classification with the liveness flag produced by the
immediate poll. -/
theorem run_spawn (env : ProcEnv) (lang : String)
    (hl : lang = "Python" ∨ lang = "Java") :
    run_lab_2_code env lang = classify_after_first env (!(env.exited 0)) := by
  rcases hl with h | h <;> subst h <;> rfl

/-- `find_file` on a listing holding a matching candidate file returns
the record built from the search folder and the first match's
extension. -/
theorem find_file_match (sf : String) (entries : List FSEntry) (fn ext : String)
    (h : findMatchExt entries fn = some ext) :
    find_file sf entries fn =
      some { folder_path := sf, ext := ext, language := langMap ext } := by
  rw [find_file.eq_def, h]

/-- `find_file` on a listing with no matching candidate file recurses
into the first collected subdirectory. -/
theorem find_file_rec (sf : String) (entries : List FSEntry) (fn n : String)
    (sub tail : List FSEntry)
    (h1 : findMatchExt entries fn = none)
    (h2 : entries.filter (dirCandidate fn) = .dir n sub :: tail) :
    find_file sf entries fn = find_file (osJoin sf n) sub fn := by
  rw [find_file.eq_def, h1]
  split
  · next ext heq => exact absurd heq (by simp)
  · split
    · next n2 sub2 tail2 heq2 =>
      rw [h2] at heq2
      cases heq2
      rfl
    · next x heq2 hx =>
      exact absurd h2 (hx n sub tail)

/-- `find_file` on a listing with no matching candidate file and no
collected subdirectory returns `none`. -/
theorem find_file_none (sf : String) (entries : List FSEntry) (fn : String)
    (h1 : findMatchExt entries fn = none)
    (h2 : entries.filter (dirCandidate fn) = []) :
    find_file sf entries fn = none := by
  rw [find_file.eq_def, h1]
  split
  · next ext heq => exact absurd heq (by simp)
  · split
    · next n2 sub2 tail2 heq2 =>
      rw [h2] at heq2
      cases heq2
    · next x heq2 hx => rfl

/-- The classifier returns its result as a value: the exception channel
of `run_lab_2_code_exc` is never used. -/
theorem run_lab_2_code_exc_ok (env : ProcEnv) (lang : String) :
    run_lab_2_code_exc env lang = .ok (run_lab_2_code env lang) := by
  unfold run_lab_2_code_exc run_lab_2_code
  split_ifs <;> rfl

/-- The per-submission driver returns its result as a value: the
exception channel of `run_individual_submission_exc` is never used. -/
theorem run_individual_submission_exc_ok (path : String) (sub : SubmissionEnv) :
    run_individual_submission_exc path sub =
      .ok (run_individual_submission path sub) := by
  rcases hfind : find_file path sub.tree "PingClient" with _ | cf
  · simp [run_individual_submission_exc, run_individual_submission, hfind]
  · simp [run_individual_submission_exc, run_individual_submission, hfind,
      run_lab_2_code_exc_ok]

/-- `findMatchExt` finds nothing exactly when no entry of the listing is
a matching candidate file. -/
theorem findMatchExt_eq_none_iff (l : List FSEntry) (fn : String) :
    findMatchExt l fn = none ↔ ∀ e ∈ l, matchesCandidate fn e = false := by
  unfold findMatchExt
  rw [List.findSome?_eq_none_iff]
  constructor
  · intro h e he
    have h2 := h e he
    by_cases hb : matchesCandidate fn e
    · simp [hb] at h2
    · simpa using hb
  · intro h e he
    simp [h e he]

/-- An entry that is not a matching candidate contributes nothing to the
matching pass. -/
theorem findMatchExt_skip (pre rest : List FSEntry) (e : FSEntry) (fn : String)
    (he : matchesCandidate fn e = false) :
    findMatchExt (pre ++ e :: rest) fn = findMatchExt (pre ++ rest) fn := by
  induction pre with
  | nil =>
    show findMatchExt (e :: rest) fn = findMatchExt rest fn
    unfold findMatchExt
    rw [List.findSome?_cons]
    simp [he]
  | cons b t ih =>
    show findMatchExt (b :: (t ++ e :: rest)) fn =
      findMatchExt (b :: (t ++ rest)) fn
    unfold findMatchExt at ih ⊢
    rw [List.findSome?_cons, List.findSome?_cons]
    cases hfb : (if matchesCandidate fn b then some (splitext b.name).2
        else none) with
    | some v => rfl
    | none => exact ih

/-- A retry iteration on an empty ledger does nothing: the `while`
guard has failed. -/
theorem retryStep_nil (sp : String)
    (log : List (String × ExecStatus × String)) (ev : RetryEvent) :
    retryStep sp ([], log) ev = ([], log) := by
  simp [retryStep]

/-- Driving the retry loop from an empty ledger yields an empty ledger
and an empty log: the loop exits as soon as the ledger is empty. -/
theorem retryRun_nil (sp : String) (evs : List RetryEvent) :
    retryRun sp [] evs = ([], []) := by
  unfold retryRun
  induction evs with
  | nil => rfl
  | cons ev t ih =>
    simp only [List.foldl_cons, retryStep_nil]
    exact ih

/-- The submission picked by the operator is one of the remaining
submissions. -/
theorem retrySelect_mem (l : List String) (i : Nat) (hl : ¬ l.length = 0) :
    l.getD (i % l.length) "" ∈ l := by
  have hpos : 0 < l.length := Nat.pos_of_ne_zero hl
  have hlt : i % l.length < l.length := Nat.mod_lt _ hpos
  rw [List.getD_eq_getElem?_getD, List.getElem?_eq_getElem hlt]
  exact List.getElem_mem hlt

/-- One retry iteration on a nonempty ledger, unfolded: the selected
submission is re-classified and logged; it is erased on outcome `OK`,
erased when the operator answers `r`, and kept otherwise. -/
theorem retryStep_cons (sp : String) (l : List String) (ev : RetryEvent)
    (hl : ¬ l.length = 0) :
    retryStep sp (l, []) ev =
      (if ((run_individual_submission
            (osJoin sp (l.getD (ev.sel % l.length) "")) ev.sub).status).value = 0
        then l.erase (l.getD (ev.sel % l.length) "")
        else if ev.decision.toLower = "r"
          then l.erase (l.getD (ev.sel % l.length) "")
          else l,
       [(l.getD (ev.sel % l.length) "",
         (run_individual_submission
           (osJoin sp (l.getD (ev.sel % l.length) "")) ev.sub).status,
         ev.decision)]) := by
  simp only [retryStep, if_neg hl]
  split_ifs <;> rfl

/-- One retry iteration appends its log entry to whatever log was
accumulated before, and the ledger evolution does not depend on the
accumulated log. -/
theorem retryStep_log (sp : String) (l : List String)
    (log : List (String × ExecStatus × String)) (ev : RetryEvent) :
    retryStep sp (l, log) ev =
      ((retryStep sp (l, []) ev).1, log ++ (retryStep sp (l, []) ev).2) := by
  simp only [retryStep]
  split_ifs <;> simp

/-- Driving the retry loop from an already-accumulated log only appends
to that log. -/
theorem retryFold_log (sp : String) :
    ∀ (evs : List RetryEvent) (l : List String)
      (log : List (String × ExecStatus × String)),
      evs.foldl (retryStep sp) (l, log) =
        ((evs.foldl (retryStep sp) (l, [])).1,
          log ++ (evs.foldl (retryStep sp) (l, [])).2) := by
  intro evs
  induction evs with
  | nil => intro l log; simp
  | cons ev t ih =>
    intro l log
    simp only [List.foldl_cons]
    rw [retryStep_log sp l log ev]
    rcases hstep : retryStep sp (l, []) ev with ⟨l2, log2⟩
    simp only [hstep]
    rw [ih l2 (log ++ log2), ih l2 log2]
    simp

/-- Characterization of the retry loop: a submission remains in the
ledger exactly when it started there and none of its logged retries
ended in `OK` or in an operator removal. -/
theorem retry_mem_char (sp : String) :
    ∀ (evs : List RetryEvent) (l : List String), l.Nodup → ∀ s,
      (s ∈ (evs.foldl (retryStep sp) (l, [])).1 ↔
        s ∈ l ∧ ∀ e ∈ (evs.foldl (retryStep sp) (l, [])).2, e.1 = s →
          e.2.1 ≠ ExecStatus.OK ∧ e.2.2.toLower ≠ "r") := by
  intro evs
  induction evs with
  | nil =>
    intro l hnd s
    simp
  | cons ev t ih =>
    intro l hnd s
    simp only [List.foldl_cons]
    by_cases hl : l.length = 0
    · have hnil : l = [] := List.length_eq_zero.1 hl
      subst hnil
      rw [retryStep_nil]
      rw [ih [] List.nodup_nil s]
    · rw [retryStep_cons sp l ev hl]
      generalize hsubm : l.getD (ev.sel % l.length) "" = subm
      generalize hst :
        (run_individual_submission (osJoin sp subm) ev.sub).status = st
      have hmem : subm ∈ l := hsubm ▸ retrySelect_mem l ev.sel hl
      by_cases hrem : st.value = 0 ∨ ev.decision.toLower = "r"
      · have hstep : (if st.value = 0 then l.erase subm
            else if ev.decision.toLower = "r" then l.erase subm else l) =
            l.erase subm := by
          rcases hrem with h0 | hr
          · rw [if_pos h0]
          · by_cases h0 : st.value = 0
            · rw [if_pos h0]
            · rw [if_neg h0, if_pos hr]
        rw [hstep, retryFold_log sp t (l.erase subm) _,
          ih (l.erase subm) (hnd.erase subm) s]
        constructor
        · rintro ⟨hsl, hcond⟩
          have hparts := (List.Nodup.mem_erase_iff hnd).1 hsl
          refine ⟨hparts.2, ?_⟩
          intro e he hes
          rcases List.mem_append.1 he with hin | hin
          · rcases List.mem_singleton.1 hin with rfl
            exact absurd hes (by simpa using fun hx => hparts.1 hx.symm)
          · exact hcond e hin hes
        · rintro ⟨hsl, hcond⟩
          have hne : s ≠ subm := by
            intro hcontra
            have hcond2 := hcond (subm, st, ev.decision)
              (List.mem_append.2 (Or.inl (List.mem_singleton.2 rfl)))
              hcontra.symm
            rcases hrem with h0 | hr
            · exact hcond2.1 ((value_eq_zero_iff st).1 h0)
            · exact hcond2.2 hr
          refine ⟨(List.Nodup.mem_erase_iff hnd).2 ⟨hne, hsl⟩, ?_⟩
          intro e he hes
          exact hcond e (List.mem_append.2 (Or.inr he)) hes
      · push_neg at hrem
        have hstep : (if st.value = 0 then l.erase subm
            else if ev.decision.toLower = "r" then l.erase subm else l) = l := by
          rw [if_neg hrem.1, if_neg hrem.2]
        rw [hstep, retryFold_log sp t l _, ih l hnd s]
        constructor
        · rintro ⟨hsl, hcond⟩
          refine ⟨hsl, ?_⟩
          intro e he hes
          rcases List.mem_append.1 he with hin | hin
          · rcases List.mem_singleton.1 hin with rfl
            exact ⟨fun hok => hrem.1 ((value_eq_zero_iff st).2 hok), hrem.2⟩
          · exact hcond e hin hes
        · rintro ⟨hsl, hcond⟩
          refine ⟨hsl, ?_⟩
          intro e he hes
          exact hcond e (List.mem_append.2 (Or.inr he)) hes

/-! ### Claims -/

/-- C1: for every classified process that terminates naturally — the
exit is first observed at poll `k` with `1 ≤ k` (it survived the
immediate check) and `k ≤ 150` (the counter ceiling does not fire
first), so the poll at `k + 1` signals termination inside the polling
loop — the classification compares the elapsed wall-clock time since
spawn at the catch against 2 seconds: strictly below 2 yields
`UNEXPECTED_TERMINATION`, at or above 2 (including exactly 2) yields
`OK`. -/
theorem claim_natural_exit_elapsed_classification (env : ProcEnv) (k : Nat)
    (lang : String) (hl : lang = "Python" ∨ lang = "Java")
    (hk : FirstExitAt env k) (h1 : 1 ≤ k) (h2 : k ≤ 150) :
    (env.elapsed (k + 1) < 2 →
      run_lab_2_code env lang =
        { status := .UNEXPECTED_TERMINATION, kills := 0, spawned := true,
          loopPolls := k + 1, messages := [] }) ∧
    (2 ≤ env.elapsed (k + 1) →
      run_lab_2_code env lang =
        { status := .OK, kills := 0, spawned := true,
          loopPolls := k + 1, messages := [] }) := by
  have h0 : env.exited 0 = false := hk.2 0 h1
  have hloop := lab2Loop_raise env k hk 150 1 h1 (by omega)
  constructor
  · intro hlt
    rw [run_spawn env lang hl, h0]
    simp [classify_after_first, hloop, hlt]
  · intro hge
    have hnlt : ¬ env.elapsed (k + 1) < 2 := not_lt.2 hge
    rw [run_spawn env lang hl, h0]
    simp [classify_after_first, hloop, hnlt]

/-- Witness for C1: a process whose exit is first observed at poll 3
with elapsed time 1 second is classified `UNEXPECTED_TERMINATION`. -/
theorem claim_natural_exit_elapsed_classification_witness :
    FirstExitAt ⟨fun n => decide (3 ≤ n), fun _ => 1⟩ 3 ∧
    run_lab_2_code ⟨fun n => decide (3 ≤ n), fun _ => 1⟩ "Python" =
      { status := .UNEXPECTED_TERMINATION, kills := 0, spawned := true,
        loopPolls := 4, messages := [] } := by
  have hk : FirstExitAt ⟨fun n => decide (3 ≤ n), fun _ => 1⟩ 3 := by decide
  exact ⟨hk, (claim_natural_exit_elapsed_classification _ 3 "Python" (Or.inl rfl)
    hk (by decide) (by decide)).1 (by norm_num)⟩

/-- C2 (counterexample): the polling loop of `run_lab_2_code` performs
151 polls — not 150 — before the force kill: the counter is incremented
after each poll and the kill fires only once `count > 150`, which first
happens with `count = 151`. -/
theorem claim_timeout_150_polls_counterexample :
    (run_lab_2_code ⟨fun _ => false, fun _ => 0⟩ "Python").loopPolls = 151 ∧
    ¬ (run_lab_2_code ⟨fun _ => false, fun _ => 0⟩ "Python").loopPolls = 150 := by
  have hloop := lab2Loop_kill (⟨fun _ => false, fun _ => 0⟩ : ProcEnv) 150 1
    (fun j _ _ => rfl)
  constructor <;> simp [run_lab_2_code, classify_after_first, hloop]

/-- C2 (amended): for every process that never exits and is never
killed externally, the polling loop force-kills it after exactly 151
poll iterations of 0.1 time-units each (the loop's counter must exceed
150, which first happens on the 151st iteration) and returns `TIMEOUT`,
and the kill operation is invoked exactly once during that
classification. -/
theorem claim_timeout_force_kill_after_151_polls (env : ProcEnv) (lang : String)
    (hl : lang = "Python" ∨ lang = "Java")
    (hnever : ∀ n, env.exited n = false) :
    run_lab_2_code env lang =
      { status := .TIMEOUT, kills := 1, spawned := true,
        loopPolls := 151, messages := [] } := by
  rw [run_spawn env lang hl, hnever 0]
  have hloop := lab2Loop_kill env 150 1 (fun j _ _ => hnever j)
  simp [classify_after_first, hloop]

/-- Witness for C2 (amended): a concrete never-exiting process is
force-killed once, after 151 loop polls, with outcome `TIMEOUT`. -/
theorem claim_timeout_force_kill_after_151_polls_witness :
    (∀ n, (⟨fun _ => false, fun _ => 0⟩ : ProcEnv).exited n = false) ∧
    run_lab_2_code ⟨fun _ => false, fun _ => 0⟩ "Java" =
      { status := .TIMEOUT, kills := 1, spawned := true,
        loopPolls := 151, messages := [] } :=
  ⟨fun _ => rfl, claim_timeout_force_kill_after_151_polls _ "Java" (Or.inr rfl)
    (fun _ => rfl)⟩

/-- C3: for every spawned process, the immediate poll precedes the
polling loop; a process not alive at that first check is classified
`EXECUTION_FAILED` with the loop never entered (zero loop polls), so
`EXECUTION_FAILED` takes priority over `UNEXPECTED_TERMINATION` for a
process that dies before being observed alive. -/
theorem claim_execution_failed_short_circuit (env : ProcEnv) (lang : String)
    (hl : lang = "Python" ∨ lang = "Java") (h0 : env.exited 0 = true) :
    run_lab_2_code env lang =
      { status := .EXECUTION_FAILED, kills := 0, spawned := true,
        loopPolls := 0, messages := [] } := by
  rw [run_spawn env lang hl, h0]
  rfl

/-- Witness for C3: a process already dead at the immediate poll is
classified `EXECUTION_FAILED` without entering the loop. -/
theorem claim_execution_failed_short_circuit_witness :
    (⟨fun _ => true, fun _ => 0⟩ : ProcEnv).exited 0 = true ∧
    run_lab_2_code ⟨fun _ => true, fun _ => 0⟩ "Python" =
      { status := .EXECUTION_FAILED, kills := 0, spawned := true,
        loopPolls := 0, messages := [] } :=
  ⟨rfl, claim_execution_failed_short_circuit _ "Python" (Or.inl rfl) rfl⟩

/-- C4: every per-submission failure is returned as an outcome value:
for every process behaviour and language the classifier returns an
`ExecStatus` value and the `ChildProcessError` signalled by the process
handle's poll never escapes to the batch layer, at every point at which
the child may terminate, including the very first poll. -/
theorem claim_no_fault_escapes_classifier :
    ∀ (env : ProcEnv) (lang path : String) (sub : SubmissionEnv),
      run_lab_2_code_exc env lang = .ok (run_lab_2_code env lang) ∧
      run_individual_submission_exc path sub =
        .ok (run_individual_submission path sub) :=
  fun env lang path sub =>
    ⟨run_lab_2_code_exc_ok env lang, run_individual_submission_exc_ok path sub⟩

/-- C8: a submission whose detected language is C is classified `OK`
immediately, with the manual-review message written to the output sink
and no process spawned. -/
theorem claim_c_checked_manually (path : String) (sub : SubmissionEnv)
    (cf : FoundFile) (hf : find_file path sub.tree "PingClient" = some cf)
    (hc : cf.language = "C") :
    run_individual_submission path sub =
      { status := .OK, kills := 0, spawned := false, loopPolls := 0,
        messages := ["Code implemented in C, Please check manually!"] } := by
  simp [run_individual_submission, hf, hc, run_lab_2_code]

/-- Witness for C8: a submission directory holding `PingClient.c` only
is detected as C and classified `OK` with the manual-review message and
no spawn. -/
theorem claim_c_checked_manually_witness :
    find_file "p" [FSEntry.file "PingClient.c"] "PingClient" =
      some { folder_path := "p", ext := ".c", language := "C" } ∧
    run_individual_submission "p"
        ⟨[FSEntry.file "PingClient.c"], ⟨fun _ => false, fun _ => 0⟩⟩ =
      { status := .OK, kills := 0, spawned := false, loopPolls := 0,
        messages := ["Code implemented in C, Please check manually!"] } := by
  have h1 : findMatchExt [FSEntry.file "PingClient.c"] "PingClient" =
      some ".c" := by decide
  have hf := find_file_match "p" [FSEntry.file "PingClient.c"] "PingClient" ".c" h1
  exact ⟨hf, claim_c_checked_manually "p" _ _ hf rfl⟩

/-- C5: in automatic, manual and retry mode alike, the per-submission
processing closes the submission's output stream exactly once: each body
completes with the classification outcome as a value and a close count
of one (a fault escaping the classification would skip the close, but
the classification never faults). -/
theorem claim_stream_closed_exactly_once :
    ∀ (class_path submission_path submission : String) (sub : SubmissionEnv),
      auto_submission_body class_path submission sub =
        .ok ((run_individual_submission (osJoin class_path submission) sub).status,
          1) ∧
      manual_submission_body class_path submission sub =
        .ok ((run_individual_submission (osJoin class_path submission) sub).status,
          1) ∧
      retry_submission_body submission_path submission sub =
        .ok ((run_individual_submission
          (osJoin submission_path submission) sub).status, 1) := by
  intro cp sp subm sub
  refine ⟨?_, ?_, ?_⟩ <;>
    simp [auto_submission_body, manual_submission_body, retry_submission_body,
      run_individual_submission_exc_ok, Except.map]

/-- C9: in automatic mode, a directory entry whose name starts with "."
is skipped entirely: no output stream is created for it, it is never
classified, and it never appears in the failure ledger. -/
theorem claim_hidden_entries_skipped (class_path : String)
    (subs : List String) (envOf : String → SubmissionEnv) (s : String)
    (hs : pyStartsWith s "." = true) :
    s ∉ (mark_submissions_auto class_path subs envOf).streams ∧
    s ∉ (mark_submissions_auto class_path subs envOf).classified ∧
    ∀ d, (s, d) ∉ (mark_submissions_auto class_path subs envOf).failed := by
  have key : ∀ (l : List String) (st : AutoState),
      s ∉ st.streams → s ∉ st.classified → (∀ d, (s, d) ∉ st.failed) →
      s ∉ (l.foldl (autoStep class_path envOf) st).streams ∧
      s ∉ (l.foldl (autoStep class_path envOf) st).classified ∧
      ∀ d, (s, d) ∉ (l.foldl (autoStep class_path envOf) st).failed := by
    intro l
    induction l with
    | nil => intro st h1 h2 h3; exact ⟨h1, h2, h3⟩
    | cons a t ih =>
      intro st h1 h2 h3
      simp only [List.foldl_cons]
      by_cases ha : pyStartsWith a "."
      · rw [autoStep, if_pos ha]
        exact ih st h1 h2 h3
      · have hne : s ≠ a := fun hsa => ha (hsa ▸ hs)
        simp only [autoStep, if_neg ha]
        apply ih
        · simp [h1, hne]
        · simp [h2, hne]
        · intro d
          split
          · simp [h3 d, hne]
          · exact h3 d
  exact key subs _ (by simp) (by simp) (by simp)

/-- C10: an entry whose name without extension equals the target base
name but whose extension is not `.py`, `.java` or `.c` (for example a
subdirectory named exactly `PingClient`, whose extension is empty) is
neither returned as a match nor recursed into: removing it from the
listing does not change the result of `find_file`, so anything beneath
such a directory is never found. -/
theorem claim_stem_match_other_ext_skipped (sf fn : String)
    (pre rest : List FSEntry) (e : FSEntry)
    (hname : (splitext e.name).1 = fn)
    (hext : (splitext e.name).2 ∉ ([".py", ".c", ".java"] : List String)) :
    find_file sf (pre ++ e :: rest) fn = find_file sf (pre ++ rest) fn := by
  simp only [List.mem_cons, List.mem_singleton, not_or] at hext
  obtain ⟨he1, he2, he3⟩ := hext
  have hm : matchesCandidate fn e = false := by
    simp [matchesCandidate, hname, he1, he2, he3]
  have hd : dirCandidate fn e = false := by
    simp [dirCandidate, hname]
  have h1 : findMatchExt (pre ++ e :: rest) fn = findMatchExt (pre ++ rest) fn :=
    findMatchExt_skip pre rest e fn hm
  have h2 : (pre ++ e :: rest).filter (dirCandidate fn) =
      (pre ++ rest).filter (dirCandidate fn) := by
    simp [List.filter_append, List.filter_cons, hd]
  rcases hme : findMatchExt (pre ++ rest) fn with _ | ext
  · rcases hfl : (pre ++ rest).filter (dirCandidate fn) with _ | ⟨hd1, tl⟩
    · rw [find_file_none sf _ fn (h1.trans hme) (h2.trans hfl),
        find_file_none sf _ fn hme hfl]
    · cases hd1 with
      | file nm =>
        have hin : dirCandidate fn (FSEntry.file nm) = true :=
          List.of_mem_filter (hfl ▸ List.mem_cons_self _ _)
        simp [dirCandidate, FSEntry.isDir] at hin
      | dir nm sb =>
        rw [find_file_rec sf _ fn nm sb tl (h1.trans hme) (h2.trans hfl),
          find_file_rec sf _ fn nm sb tl hme hfl]
  · rw [find_file_match sf _ fn ext (h1.trans hme),
      find_file_match sf _ fn ext hme]

/-- Witness for C10: a subdirectory named exactly `PingClient` holding
`PingClient.py` is skipped, and the candidate file beneath it is never
found. -/
theorem claim_stem_match_other_ext_skipped_witness :
    (splitext (FSEntry.dir "PingClient" [FSEntry.file "PingClient.py"]).name).1 =
      "PingClient" ∧
    (splitext (FSEntry.dir "PingClient" [FSEntry.file "PingClient.py"]).name).2 ∉
      ([".py", ".c", ".java"] : List String) ∧
    find_file "r"
        ([] ++ FSEntry.dir "PingClient" [FSEntry.file "PingClient.py"] :: [])
        "PingClient" =
      find_file "r" ([] ++ []) "PingClient" ∧
    find_file "r" ([] ++ []) "PingClient" = none := by
  refine ⟨by decide, by decide, ?_, ?_⟩
  · exact claim_stem_match_other_ext_skipped "r" "PingClient" [] []
      (FSEntry.dir "PingClient" [FSEntry.file "PingClient.py"])
      (by decide) (by decide)
  · exact find_file_none "r" [] "PingClient" rfl rfl

/-- C6 (counterexample): with direct entries
`[dir "PingClient" [file "PingClient.py"], dir "A" []]` — none of which
is a matching candidate file — `find_file` does not recurse into the
first subdirectory in listing order: that subdirectory contains the
candidate (its own result is a `Python` match), yet the overall result
is `none`, because the name-excluded first subdirectory is skipped and
the second sibling subdirectory `A` is the one examined. -/
theorem claim_first_subdirectory_counterexample :
    find_file "root"
        [FSEntry.dir "PingClient" [FSEntry.file "PingClient.py"],
         FSEntry.dir "A" []] "PingClient" = none ∧
    find_file (osJoin "root" "PingClient") [FSEntry.file "PingClient.py"]
        "PingClient" =
      some { folder_path := "root/PingClient", ext := ".py",
             language := "Python" } := by
  constructor
  · have h1 : findMatchExt
        [FSEntry.dir "PingClient" [FSEntry.file "PingClient.py"],
         FSEntry.dir "A" []] "PingClient" = none := by decide
    have h2 : List.filter (dirCandidate "PingClient")
        [FSEntry.dir "PingClient" [FSEntry.file "PingClient.py"],
         FSEntry.dir "A" []] = [FSEntry.dir "A" []] := rfl
    rw [find_file_rec "root" _ "PingClient" "A" [] [] h1 h2]
    exact find_file_none _ [] "PingClient" rfl rfl
  · have h1 : findMatchExt [FSEntry.file "PingClient.py"] "PingClient" =
        some ".py" := by decide
    exact find_file_match _ _ _ _ h1

/-- C6 (amended): for every search folder whose direct entries contain
no matching candidate file, `find_file` recurses into at most the first
collected subdirectory — the first entry, in listing order, that is a
directory whose name without extension differs from the target — and
returns its result (possibly `none`), never examining any later sibling
subdirectory. -/
theorem claim_first_candidate_subdirectory (sf fn n : String)
    (pre rest sub : List FSEntry)
    (hpre : ∀ e ∈ pre, matchesCandidate fn e = false ∧
      dirCandidate fn e = false)
    (hd : dirCandidate fn (FSEntry.dir n sub) = true)
    (hrest : ∀ e ∈ rest, matchesCandidate fn e = false) :
    find_file sf (pre ++ FSEntry.dir n sub :: rest) fn =
      find_file (osJoin sf n) sub fn := by
  have hmd : matchesCandidate fn (FSEntry.dir n sub) = false := by
    simp only [dirCandidate, Bool.and_eq_true, bne_iff_ne, ne_eq] at hd
    simp [matchesCandidate, FSEntry.name] at hd ⊢
    intro hcontra
    exact absurd hcontra hd.1
  have hm : findMatchExt (pre ++ FSEntry.dir n sub :: rest) fn = none := by
    rw [findMatchExt_eq_none_iff]
    intro e he
    rcases List.mem_append.1 he with hin | hin
    · exact (hpre e hin).1
    · rcases List.mem_cons.1 hin with rfl | hin2
      · exact hmd
      · exact hrest e hin2
  have hf : (pre ++ FSEntry.dir n sub :: rest).filter (dirCandidate fn) =
      FSEntry.dir n sub :: rest.filter (dirCandidate fn) := by
    have hnil : pre.filter (dirCandidate fn) = [] :=
      List.filter_eq_nil_iff.2 (fun e he => by simp [(hpre e he).2])
    simp [List.filter_append, hnil, List.filter_cons, hd]
  exact find_file_rec sf _ fn n sub _ hm hf

/-- Witness for C6 (amended): a listing with a plain file, then a
candidate subdirectory, then further non-matching entries recurses into
that subdirectory and returns its result. -/
theorem claim_first_candidate_subdirectory_witness :
    (∀ e ∈ [FSEntry.file "readme.txt"],
      matchesCandidate "PingClient" e = false ∧
      dirCandidate "PingClient" e = false) ∧
    dirCandidate "PingClient" (FSEntry.dir "sub" [FSEntry.file "PingClient.py"]) =
      true ∧
    (∀ e ∈ [FSEntry.file "notes.txt"],
      matchesCandidate "PingClient" e = false) ∧
    find_file "r"
        ([FSEntry.file "readme.txt"] ++
          FSEntry.dir "sub" [FSEntry.file "PingClient.py"] ::
            [FSEntry.file "notes.txt"]) "PingClient" =
      find_file (osJoin "r" "sub") [FSEntry.file "PingClient.py"]
        "PingClient" := by
  refine ⟨?_, by decide, ?_, ?_⟩
  · intro e he
    rcases List.mem_singleton.1 he with rfl
    exact ⟨by decide, by decide⟩
  · intro e he
    rcases List.mem_singleton.1 he with rfl
    decide
  · exact claim_first_candidate_subdirectory "r" "PingClient" "sub"
      [FSEntry.file "readme.txt"] [FSEntry.file "notes.txt"]
      [FSEntry.file "PingClient.py"]
      (fun e he => by
        rcases List.mem_singleton.1 he with rfl
        exact ⟨by decide, by decide⟩)
      (by decide)
      (fun e he => by
        rcases List.mem_singleton.1 he with rfl
        decide)

/-- Witness for C9: the entry `.git` is skipped by the automatic batch
run: it gets no stream, no classification and no ledger entry. -/
theorem claim_hidden_entries_skipped_witness :
    (pyStartsWith ".git" "." = true) ∧
    ".git" ∉ (mark_submissions_auto "cls" [".git", "z1"]
      (fun _ => ⟨[], ⟨fun _ => false, fun _ => 0⟩⟩)).streams ∧
    ".git" ∉ (mark_submissions_auto "cls" [".git", "z1"]
      (fun _ => ⟨[], ⟨fun _ => false, fun _ => 0⟩⟩)).classified ∧
    ∀ d, (".git", d) ∉ (mark_submissions_auto "cls" [".git", "z1"]
      (fun _ => ⟨[], ⟨fun _ => false, fun _ => 0⟩⟩)).failed :=
  ⟨by decide, claim_hidden_entries_skipped "cls" [".git", "z1"]
    (fun _ => ⟨[], ⟨fun _ => false, fun _ => 0⟩⟩) ".git" (by decide)⟩

/-- C7: on a duplicate-free ledger, after any sequence of retry
interactions a submission remains in the ledger exactly when it started
there and every one of its logged re-classifications both came out
non-`OK` and was answered with something other than `r` by the operator
(an `OK` outcome removes it automatically, an `r` answer removes it
manually); moreover the loop does nothing once the ledger is empty. -/
theorem claim_retry_ledger_invariant (submission_path : String)
    (ledger : List String) (evs : List RetryEvent) (hnd : ledger.Nodup) :
    (∀ s, s ∈ (retryRun submission_path ledger evs).1 ↔
        s ∈ ledger ∧
        ∀ e ∈ (retryRun submission_path ledger evs).2, e.1 = s →
          e.2.1 ≠ ExecStatus.OK ∧ e.2.2.toLower ≠ "r") ∧
    retryRun submission_path [] evs = ([], []) :=
  ⟨fun s => retry_mem_char submission_path evs ledger hnd s,
    retryRun_nil submission_path evs⟩

/-- Witness for C7: a two-entry ledger driven by one interaction whose
re-classification fails (`FILE_NOT_FOUND`) and whose operator answer is
`c` satisfies the characterization. -/
theorem claim_retry_ledger_invariant_witness :
    (["z1", "z2"] : List String).Nodup ∧
    ((∀ s, s ∈ (retryRun "base" ["z1", "z2"]
          [⟨0, ⟨[], ⟨fun _ => false, fun _ => 0⟩⟩, "c"⟩]).1 ↔
        s ∈ ["z1", "z2"] ∧
        ∀ e ∈ (retryRun "base" ["z1", "z2"]
            [⟨0, ⟨[], ⟨fun _ => false, fun _ => 0⟩⟩, "c"⟩]).2, e.1 = s →
          e.2.1 ≠ ExecStatus.OK ∧ e.2.2.toLower ≠ "r") ∧
      retryRun "base" [] [⟨0, ⟨[], ⟨fun _ => false, fun _ => 0⟩⟩, "c"⟩] =
        ([], [])) :=
  ⟨by decide, claim_retry_ledger_invariant "base" ["z1", "z2"]
    [⟨0, ⟨[], ⟨fun _ => false, fun _ => 0⟩⟩, "c"⟩] (by decide)⟩

end MarkingGui
